import Mathlib

/-!
Shallow embedding of the cell-suppression Benders decomposition solver
(src/read.py, src/attacker.py, src/master.py, src/subproblem.py,
src/solver.py, src/consistent.py), together with theorems checking the
specification against the embedded code.

Numeric quantities (cell nominal values, deviation magnitudes LB and UB,
protection limits, LP solution values, reduced costs) are modelled as
rationals.  An LP solve performed by the external solver is modelled as
an oracle argument supplying, for a target cell and a direction, the
objective value together with the primal values and reduced costs of the
solved attacker LP; during one sub-problem pass the attacker bounds are
fixed, so an oracle fixed per pass is a faithful model.
-/

/-- One table cell as stored by read.data (src/read.py lines 49-60):
nominal value, sensitivity flag, publication weight, raw deviation
magnitudes LB and UB, and the protection limits UPL and LPL (the last
two are meaningful for sensitive cells only, matching the separate
sensitive-cells mapping of the Python code). -/
structure Cell where
  nominal : ℚ
  sensitive : Bool
  weight : ℚ
  LB : ℚ
  UB : ℚ
  UPL : ℚ
  LPL : ℚ
deriving DecidableEq

/-- A problem instance: the cell identifiers in input order, the per-cell
data, and the relations, each one a pair of a positive-side and a
negative-side cell list (src/read.py). -/
structure TableData where
  cellIds : List Nat
  cellInfo : Nat → Cell
  relations : List (Nat × (List Nat × List Nat))

/-- Number of cells with nonzero nominal value (src/read.py line 90). -/
def num_nz (d : TableData) : Nat :=
  (d.cellIds.filter fun c => decide ((d.cellInfo c).nominal ≠ 0)).length

/-- The keys of the sensitive-cells mapping, in input order
(src/read.py lines 58-60). -/
def sensitive_cells (d : TableData) : List Nat :=
  d.cellIds.filter fun c => (d.cellInfo c).sensitive

/-- Result of one attacker LP solve: the optimal objective value, and the
primal value and reduced cost of every variable of the solved model
(available as attributes x and RC after Attacker.optimise). -/
structure OracleResult where
  objVal : ℚ
  primal : Nat → ℚ
  rc : Nat → ℚ

/-- The external LP solver viewed as an oracle: target cell and direction
(true means maximise) to solved-model data (src/attacker.py lines 59-64). -/
def Oracle : Type := Nat → Bool → OracleResult

/-- A linear constraint over the master suppression variables, standing
for the inequality sum of coefficient times variable at least rhs. -/
structure Cut where
  terms : List (ℚ × Nat)
  rhs : ℚ
deriving DecidableEq

/-- SubProblem.positive_reduced_cost (src/subproblem.py lines 126-131):
the cells with positive reduced cost in the current attacker solution,
paired with the absolute value of that reduced cost. -/
def positive_reduced_cost (d : TableData) (rc : Nat → ℚ) : List (Nat × ℚ) :=
  d.cellIds.filterMap fun c => if 0 < rc c then some (c, |rc c|) else none

/-- SubProblem.negative_reduced_cost (src/subproblem.py lines 133-137). -/
def negative_reduced_cost (d : TableData) (rc : Nat → ℚ) : List (Nat × ℚ) :=
  d.cellIds.filterMap fun c => if rc c < 0 then some (c, |rc c|) else none

/-- SubProblem.add_upper_constraint_to_master (src/subproblem.py lines
139-162): the cut added for a UPL violation of a sensitive cell.  Both
expressions keep only cells with nonzero nominal value. -/
def add_upper_constraint_to_master (d : TableData) (rc : Nat → ℚ) (sensitive_cell : Nat) : Cut :=
  let protection_limit := (d.cellInfo sensitive_cell).UPL
  { terms :=
      ((positive_reduced_cost d rc).filterMap fun p =>
        if (d.cellInfo p.1).nominal ≠ 0 then
          some (min (p.2 * (d.cellInfo p.1).UB) protection_limit, p.1) else none) ++
      ((negative_reduced_cost d rc).filterMap fun p =>
        if (d.cellInfo p.1).nominal ≠ 0 then
          some (min (p.2 * (d.cellInfo p.1).LB) protection_limit, p.1) else none),
    rhs := protection_limit }

/-- SubProblem.add_lower_constraint_to_master (src/subproblem.py lines
164-187): the cut added for an LPL violation.  Unlike the upper cut, no
nonzero-nominal filter is applied. -/
def add_lower_constraint_to_master (d : TableData) (rc : Nat → ℚ) (sensitive_cell : Nat) : Cut :=
  let protect_limit := (d.cellInfo sensitive_cell).LPL
  { terms :=
      ((positive_reduced_cost d rc).map fun p =>
        (min (p.2 * (d.cellInfo p.1).LB) protect_limit, p.1)) ++
      ((negative_reduced_cost d rc).map fun p =>
        (min (p.2 * (d.cellInfo p.1).UB) protect_limit, p.1)),
    rhs := protect_limit }

/-- Modelled from the words of the specification for claim C1 (spec.md
section 4.2): the claimed UPL cut sums, over the positive-reduced-cost
cells on the opposite side of the relation of the violated cell, the
quantity min of reduced cost times UB and the protection limit, plus the
mirror sum with LB over negative-reduced-cost cells on the same side.
The two sides are passed explicitly. -/
def claimed_upper_cut (d : TableData) (opposite same : List Nat) (rc : Nat → ℚ)
    (sensitive_cell : Nat) : Cut :=
  let protection_limit := (d.cellInfo sensitive_cell).UPL
  { terms :=
      (opposite.filterMap fun c =>
        if 0 < rc c then some (min (|rc c| * (d.cellInfo c).UB) protection_limit, c) else none) ++
      (same.filterMap fun c =>
        if rc c < 0 then some (min (|rc c| * (d.cellInfo c).LB) protection_limit, c) else none),
    rhs := protection_limit }

/-- Modelled from the words of the specification for claim C1: the
claimed LPL cut, the mirror of the claimed UPL cut with the UB and LB
roles swapped and otherwise identical in which cells it includes. -/
def claimed_lower_cut (d : TableData) (opposite same : List Nat) (rc : Nat → ℚ)
    (sensitive_cell : Nat) : Cut :=
  let protect_limit := (d.cellInfo sensitive_cell).LPL
  { terms :=
      (opposite.filterMap fun c =>
        if 0 < rc c then some (min (|rc c| * (d.cellInfo c).LB) protect_limit, c) else none) ++
      (same.filterMap fun c =>
        if rc c < 0 then some (min (|rc c| * (d.cellInfo c).UB) protect_limit, c) else none),
    rhs := protect_limit }

/-- A three-cell instance used to compare the code cuts with the cuts the
specification describes: cell 2 is sensitive with the relation stating
that cell 2 equals cell 3, while cell 1 lies outside that relation, and
cell 3 has nominal value zero. -/
def exCellInfo : Nat → Cell := fun c =>
  if c = 1 then ⟨5, false, 1, 2, 2, 0, 0⟩
  else if c = 2 then ⟨10, true, 1, 2, 2, 1, 1⟩
  else ⟨0, false, 1, 2, 2, 0, 0⟩

/-- The instance wrapping exCellInfo. -/
def exData : TableData := ⟨[1, 2, 3], exCellInfo, [(1, ([2], [3]))]⟩

/-- A reduced-cost vector for the attacker LP on exData: positive on cell
1 (outside the relation of cell 2) and negative on the zero-nominal cell
3. -/
def exRC : Nat → ℚ := fun c => if c = 1 then 1 else if c = 3 then -1 else 0

/-- C1 counterexample: on exData with reduced costs exRC, the cut the
code derives for the UPL violation of cell 2 contains cell 1, which lies
on neither side of the relation of cell 2, so it differs from the cut the
specification describes; and the code cut for the LPL violation contains
the zero-nominal cell 3, which the mirror construction of the upper cut
excludes, so the two cuts are not otherwise identical in which cells
they include. -/
theorem C1_cut_formula_counterexample :
    add_upper_constraint_to_master exData exRC 2 ≠ claimed_upper_cut exData [3] [2] exRC 2 ∧
    add_lower_constraint_to_master exData exRC 2 ≠ claimed_lower_cut exData [3] [2] exRC 2 := by
  have h : (add_upper_constraint_to_master exData exRC 2).terms = [(1, 1)] ∧
      (add_lower_constraint_to_master exData exRC 2).terms = [(1, 1), (1, 3)] ∧
      (claimed_upper_cut exData [3] [2] exRC 2).terms = [] ∧
      (claimed_lower_cut exData [3] [2] exRC 2).terms = [] := by
    norm_num [add_upper_constraint_to_master, add_lower_constraint_to_master,
      claimed_upper_cut, claimed_lower_cut, positive_reduced_cost, negative_reduced_cost,
      exData, exCellInfo, exRC, List.filterMap_cons]
  obtain ⟨h1, h2, h3, h4⟩ := h
  constructor
  · intro heq
    have ht := congrArg Cut.terms heq
    rw [h1, h3] at ht
    simp at ht
  · intro heq
    have ht := congrArg Cut.terms heq
    rw [h2, h4] at ht
    simp at ht

/-- Characterisation of the positive-reduced-cost generator. -/
theorem mem_positive_reduced_cost (d : TableData) (rc : Nat → ℚ) (p : Nat × ℚ) :
    p ∈ positive_reduced_cost d rc ↔ p.1 ∈ d.cellIds ∧ 0 < rc p.1 ∧ p.2 = |rc p.1| := by
  constructor
  · intro hmem
    obtain ⟨a, ha, hf⟩ := List.mem_filterMap.mp hmem
    by_cases h : 0 < rc a
    · rw [if_pos h] at hf
      injection hf with hf2
      rw [← hf2]
      exact ⟨ha, h, rfl⟩
    · rw [if_neg h] at hf
      exact absurd hf (by simp)
  · rintro ⟨hc, hpos, hv⟩
    refine List.mem_filterMap.mpr ⟨p.1, hc, ?_⟩
    rw [if_pos hpos, ← hv]

/-- Characterisation of the negative-reduced-cost generator. -/
theorem mem_negative_reduced_cost (d : TableData) (rc : Nat → ℚ) (p : Nat × ℚ) :
    p ∈ negative_reduced_cost d rc ↔ p.1 ∈ d.cellIds ∧ rc p.1 < 0 ∧ p.2 = |rc p.1| := by
  constructor
  · intro hmem
    obtain ⟨a, ha, hf⟩ := List.mem_filterMap.mp hmem
    by_cases h : rc a < 0
    · rw [if_pos h] at hf
      injection hf with hf2
      rw [← hf2]
      exact ⟨ha, h, rfl⟩
    · rw [if_neg h] at hf
      exact absurd hf (by simp)
  · rintro ⟨hc, hneg, hv⟩
    refine List.mem_filterMap.mpr ⟨p.1, hc, ?_⟩
    rw [if_pos hneg, ← hv]

/-- Characterisation of the terms of the upper-protection cut of the code. -/
theorem mem_add_upper_terms (d : TableData) (rc : Nat → ℚ) (s : Nat) (k : ℚ) (c : Nat) :
    (k, c) ∈ (add_upper_constraint_to_master d rc s).terms ↔
      c ∈ d.cellIds ∧ (d.cellInfo c).nominal ≠ 0 ∧
        ((0 < rc c ∧ k = min (|rc c| * (d.cellInfo c).UB) (d.cellInfo s).UPL) ∨
         (rc c < 0 ∧ k = min (|rc c| * (d.cellInfo c).LB) (d.cellInfo s).UPL)) := by
  simp only [add_upper_constraint_to_master, List.mem_append, List.mem_filterMap]
  constructor
  · rintro (⟨p, hp, hf⟩ | ⟨p, hp, hf⟩)
    · obtain ⟨hpc, hpos, hv⟩ := (mem_positive_reduced_cost d rc p).mp hp
      by_cases hnz : (d.cellInfo p.1).nominal ≠ 0
      · rw [if_pos hnz] at hf
        injection hf with hf2
        injection hf2 with hk hc
        subst hc
        exact ⟨hpc, hnz, Or.inl ⟨hpos, by rw [← hk, hv]⟩⟩
      · rw [if_neg hnz] at hf
        exact absurd hf (by simp)
    · obtain ⟨hpc, hneg, hv⟩ := (mem_negative_reduced_cost d rc p).mp hp
      by_cases hnz : (d.cellInfo p.1).nominal ≠ 0
      · rw [if_pos hnz] at hf
        injection hf with hf2
        injection hf2 with hk hc
        subst hc
        exact ⟨hpc, hnz, Or.inr ⟨hneg, by rw [← hk, hv]⟩⟩
      · rw [if_neg hnz] at hf
        exact absurd hf (by simp)
  · rintro ⟨hc, hnz, (⟨hpos, rfl⟩ | ⟨hneg, rfl⟩)⟩
    · exact Or.inl ⟨(c, |rc c|), (mem_positive_reduced_cost d rc (c, |rc c|)).mpr
        ⟨hc, hpos, rfl⟩, by rw [if_pos hnz]⟩
    · exact Or.inr ⟨(c, |rc c|), (mem_negative_reduced_cost d rc (c, |rc c|)).mpr
        ⟨hc, hneg, rfl⟩, by rw [if_pos hnz]⟩

/-- Characterisation of the terms of the lower-protection cut of the code. -/
theorem mem_add_lower_terms (d : TableData) (rc : Nat → ℚ) (s : Nat) (k : ℚ) (c : Nat) :
    (k, c) ∈ (add_lower_constraint_to_master d rc s).terms ↔
      c ∈ d.cellIds ∧
        ((0 < rc c ∧ k = min (|rc c| * (d.cellInfo c).LB) (d.cellInfo s).LPL) ∨
         (rc c < 0 ∧ k = min (|rc c| * (d.cellInfo c).UB) (d.cellInfo s).LPL)) := by
  simp only [add_lower_constraint_to_master, List.mem_append, List.mem_map]
  constructor
  · rintro (⟨p, hp, hf⟩ | ⟨p, hp, hf⟩)
    · obtain ⟨hpc, hpos, hv⟩ := (mem_positive_reduced_cost d rc p).mp hp
      injection hf with hk hc
      subst hc
      exact ⟨hpc, Or.inl ⟨hpos, by rw [← hk, hv]⟩⟩
    · obtain ⟨hpc, hneg, hv⟩ := (mem_negative_reduced_cost d rc p).mp hp
      injection hf with hk hc
      subst hc
      exact ⟨hpc, Or.inr ⟨hneg, by rw [← hk, hv]⟩⟩
  · rintro ⟨hc, (⟨hpos, rfl⟩ | ⟨hneg, rfl⟩)⟩
    · exact Or.inl ⟨(c, |rc c|), (mem_positive_reduced_cost d rc (c, |rc c|)).mpr
        ⟨hc, hpos, rfl⟩, rfl⟩
    · exact Or.inr ⟨(c, |rc c|), (mem_negative_reduced_cost d rc (c, |rc c|)).mpr
        ⟨hc, hneg, rfl⟩, rfl⟩

/-- C1 (amended): the UPL cut sums over all cells of the table with
positive reduced cost and nonzero nominal the quantity min of absolute
reduced cost times UB and the protection limit, plus the same with LB
over all cells with negative reduced cost and nonzero nominal, with
right-hand side the UPL; no restriction to the sides of a relation is
applied.  The LPL cut swaps the UB and LB roles but drops the
nonzero-nominal filter: it contains every cell with nonzero reduced
cost, zero-nominal cells included, with right-hand side the LPL. -/
theorem C1_cut_formula_amended (d : TableData) (rc : Nat → ℚ) (s : Nat) (k : ℚ) (c : Nat) :
    ((k, c) ∈ (add_upper_constraint_to_master d rc s).terms ↔
      c ∈ d.cellIds ∧ (d.cellInfo c).nominal ≠ 0 ∧
        ((0 < rc c ∧ k = min (|rc c| * (d.cellInfo c).UB) (d.cellInfo s).UPL) ∨
         (rc c < 0 ∧ k = min (|rc c| * (d.cellInfo c).LB) (d.cellInfo s).UPL))) ∧
    ((k, c) ∈ (add_lower_constraint_to_master d rc s).terms ↔
      c ∈ d.cellIds ∧
        ((0 < rc c ∧ k = min (|rc c| * (d.cellInfo c).LB) (d.cellInfo s).LPL) ∨
         (rc c < 0 ∧ k = min (|rc c| * (d.cellInfo c).UB) (d.cellInfo s).LPL))) ∧
    (add_upper_constraint_to_master d rc s).rhs = (d.cellInfo s).UPL ∧
    (add_lower_constraint_to_master d rc s).rhs = (d.cellInfo s).LPL :=
  ⟨mem_add_upper_terms d rc s k c, mem_add_lower_terms d rc s k c, rfl, rfl⟩

/-- Mutable state of a SubProblem object (src/subproblem.py lines 23-50):
the HIGH and LOW running bounds (total maps defaulting to the nominal
value, as the KeyDependentDict of the code), the cells currently tracked
by update_high_low, the counter of constraints added in the current
pass, the per-pass cap, and the cuts the object has added to the master
during the current pass. -/
structure SubState where
  HIGH : Nat → ℚ
  LOW : Nat → ℚ
  HIGH_LOW_cells : List Nat
  constraints_added : Nat
  max_constraints_per_iteration : Nat
  cuts : List Cut

/-- SubProblem.default_nominal_dict (src/subproblem.py lines 199-201):
the map sending every cell to its nominal value. -/
def default_nominal_dict (d : TableData) : Nat → ℚ :=
  fun c => (d.cellInfo c).nominal

/-- SubProblem.reset_high_low (src/subproblem.py lines 52-57). -/
def reset_high_low (d : TableData) (st : SubState) : SubState :=
  { st with HIGH := default_nominal_dict d, LOW := default_nominal_dict d }

/-- The SubProblem state right after construction (src/subproblem.py
lines 23-50): HIGH and LOW initiated to the nominal values. -/
def init_sub_state (d : TableData) (max_constraints : Nat) : SubState :=
  { HIGH := default_nominal_dict d
    LOW := default_nominal_dict d
    HIGH_LOW_cells := []
    constraints_added := 0
    max_constraints_per_iteration := max_constraints
    cuts := [] }

/-- The sensitive cells sorted by non-increasing UPL (src/subproblem.py
lines 42-43); a stable descending sort, as the Python sorted builtin. -/
def non_increasing_UPL_sensitive_cells (d : TableData) : List Nat :=
  List.insertionSort (fun a b => (d.cellInfo b).UPL ≤ (d.cellInfo a).UPL) (sensitive_cells d)

/-- The sensitive cells sorted by non-increasing LPL (src/subproblem.py
lines 45-46). -/
def non_increasing_LPL_sensitive_cells (d : TableData) : List Nat :=
  List.insertionSort (fun a b => (d.cellInfo b).LPL ≤ (d.cellInfo a).LPL) (sensitive_cells d)

/-- SubProblem.update_high_low (src/subproblem.py lines 189-197): for
every tracked cell, raise HIGH to at least the primal value of the just
solved attacker LP and lower LOW to at most that value. -/
def update_high_low (st : SubState) (primal : Nat → ℚ) : SubState :=
  { st with
    HIGH := fun c => if c ∈ st.HIGH_LOW_cells then max (st.HIGH c) (primal c) else st.HIGH c
    LOW := fun c => if c ∈ st.HIGH_LOW_cells then min (st.LOW c) (primal c) else st.LOW c }

/-- SubProblem.process_upper_protection_level (src/subproblem.py lines
90-106): skip when HIGH already proves feasibility, otherwise solve the
attacker maximisation; on violation add the upper cut and bump the
counter, otherwise update HIGH and LOW. -/
def process_upper_protection_level (oracle : Oracle) (d : TableData) (st : SubState)
    (sensitive_cell : Nat) : SubState :=
  let cell_nominal := (d.cellInfo sensitive_cell).nominal
  let cell_UPL := (d.cellInfo sensitive_cell).UPL
  if st.HIGH sensitive_cell < cell_nominal + cell_UPL then
    let r := oracle sensitive_cell true
    if r.objVal < cell_nominal + cell_UPL then
      { st with cuts := st.cuts ++ [add_upper_constraint_to_master d r.rc sensitive_cell]
                constraints_added := st.constraints_added + 1 }
    else update_high_low st r.primal
  else st

/-- SubProblem.process_lower_protection_level (src/subproblem.py lines
108-124). -/
def process_lower_protection_level (oracle : Oracle) (d : TableData) (st : SubState)
    (sensitive_cell : Nat) : SubState :=
  let cell_nominal := (d.cellInfo sensitive_cell).nominal
  let cell_LPL := (d.cellInfo sensitive_cell).LPL
  if cell_nominal - cell_LPL < st.LOW sensitive_cell then
    let r := oracle sensitive_cell false
    if cell_nominal - cell_LPL < r.objVal then
      { st with cuts := st.cuts ++ [add_lower_constraint_to_master d r.rc sensitive_cell]
                constraints_added := st.constraints_added + 1 }
    else update_high_low st r.primal
  else st

/-- SubProblem.solve (src/subproblem.py lines 59-88): zero the counter,
optionally reset HIGH and LOW, choose the tracked cells (all suppressed
cells in extended mode, the sensitive cells otherwise), then process the
upper protection levels in non-increasing UPL order and the lower
protection levels in non-increasing LPL order, each step guarded by the
check that the counter does not exceed the per-pass cap. -/
def sub_solve (oracle : Oracle) (d : TableData) (att_supp : Nat → ℚ) (st : SubState)
    (refresh_bounds extended : Bool) : SubState :=
  let st1 : SubState := { st with constraints_added := 0, cuts := [] }
  let st2 := if refresh_bounds then reset_high_low d st1 else st1
  let st3 : SubState := { st2 with HIGH_LOW_cells :=
      (if extended then d.cellIds.filter (fun c => decide ((1 : ℚ)/2 < att_supp c))
        else sensitive_cells d) }
  let st4 := (non_increasing_UPL_sensitive_cells d).foldl
    (fun s c => if s.constraints_added ≤ s.max_constraints_per_iteration then
      process_upper_protection_level oracle d s c else s) st3
  (non_increasing_LPL_sensitive_cells d).foldl
    (fun s c => if s.constraints_added ≤ s.max_constraints_per_iteration then
      process_lower_protection_level oracle d s c else s) st4

/-- C3: the running bounds start at the nominal value of each cell, every
update operation leaves HIGH at least its previous value and LOW at most
its previous value (for every cell, tracked or not), and reset_high_low
restores both maps to the nominal values. -/
theorem C3_high_low_monotone (d : TableData) (st : SubState) (primal : Nat → ℚ)
    (c : Nat) (m : Nat) :
    st.HIGH c ≤ (update_high_low st primal).HIGH c ∧
    (update_high_low st primal).LOW c ≤ st.LOW c ∧
    (reset_high_low d st).HIGH c = (d.cellInfo c).nominal ∧
    (reset_high_low d st).LOW c = (d.cellInfo c).nominal ∧
    (init_sub_state d m).HIGH c = (d.cellInfo c).nominal ∧
    (init_sub_state d m).LOW c = (d.cellInfo c).nominal := by
  refine ⟨?_, ?_, rfl, rfl, rfl, rfl⟩
  · simp only [update_high_low]
    split_ifs
    · exact le_max_left _ _
    · exact le_refl _
  · simp only [update_high_low]
    split_ifs
    · exact min_le_left _ _
    · exact le_refl _

/-- A two-cell instance for exercising the per-pass cut cap: both cells
are sensitive with nominal value 10 and UPL 5 (LPL 0, so the lower pass
has nothing to do). -/
def capCellInfo : Nat → Cell := fun _ => ⟨10, true, 1, 5, 5, 5, 0⟩

/-- The instance wrapping capCellInfo. -/
def capData : TableData := ⟨[1, 2], capCellInfo, []⟩

/-- An oracle whose attacker maximum stays at the nominal value 10, so
every upper protection check is violated. -/
def capOracle : Oracle := fun _ _ => ⟨10, fun _ => 10, fun _ => 0⟩

/-- C2 evaluation at the failing input: with the per-pass cap set to 1,
one SubProblem.solve pass over capData adds 2 protection cuts, because
the guard compares the counter with the cap using less-or-equal, so the
pass reaching the cap still issues one further cut. -/
theorem C2_cap_exceeded_on_failing_input :
    (sub_solve capOracle capData (fun _ => 0) (init_sub_state capData 1) true false).constraints_added = 2 ∧
    ¬ (sub_solve capOracle capData (fun _ => 0) (init_sub_state capData 1) true false).constraints_added ≤ 1 := by
  have h : (sub_solve capOracle capData (fun _ => 0) (init_sub_state capData 1) true false).constraints_added = 2 := by
    norm_num [sub_solve, init_sub_state, reset_high_low, default_nominal_dict,
      sensitive_cells, non_increasing_UPL_sensitive_cells, non_increasing_LPL_sensitive_cells,
      List.insertionSort, List.orderedInsert, process_upper_protection_level,
      process_lower_protection_level, update_high_low, add_upper_constraint_to_master,
      add_lower_constraint_to_master, positive_reduced_cost, negative_reduced_cost,
      capData, capCellInfo, capOracle, List.foldl, List.filter_cons]
  exact ⟨h, by rw [h]; norm_num⟩

/-- The data of one master variable as passed to the model: binary type,
lower bound, upper bound, objective coefficient. -/
structure VarSpec where
  binary : Bool
  lb : ℚ
  ub : ℚ
  obj : ℚ
deriving DecidableEq

/-- Master.create_vars body for one cell (src/master.py lines 27-31):
a binary variable with lower bound the sensitivity flag (the Python
boolean coerces to 1 or 0), upper bound 0 for zero-nominal cells and 1
otherwise, and objective coefficient the weight of the cell; read.data
always stores a weight, so the missing-weight fallback of the code never
fires for instances produced by the loader. -/
def create_var (cell : Cell) : VarSpec where
  binary := true
  lb := if cell.sensitive then 1 else 0
  ub := if cell.nominal = 0 then 0 else 1
  obj := cell.weight

/-- Master.create_vars (src/master.py lines 22-33): one variable per cell. -/
def create_vars (d : TableData) : Nat → VarSpec :=
  fun c => create_var (d.cellInfo c)

/-- C5: the master has one binary variable per cell whose objective
coefficient is the weight of the cell, whose lower bound is 1 exactly
for sensitive cells, and whose upper bound is 0 exactly for cells with
nominal value 0 (and 1 otherwise). -/
theorem C5_master_variables (d : TableData) (c : Nat) :
    (create_vars d c).binary = true ∧
    (create_vars d c).obj = (d.cellInfo c).weight ∧
    (create_vars d c).lb = (if (d.cellInfo c).sensitive then 1 else 0) ∧
    (create_vars d c).ub = (if (d.cellInfo c).nominal = 0 then 0 else 1) :=
  ⟨rfl, rfl, rfl, rfl⟩

/-- C9: a cell that is both sensitive and zero-nominal receives lower
bound 1 and upper bound 0 simultaneously, and no value fits between
these bounds, so the master model has no feasible assignment for that
variable; neither fixing rule takes precedence. -/
theorem C9_sensitive_zero_cell_infeasible (cell : Cell)
    (hs : cell.sensitive = true) (hz : cell.nominal = 0) :
    (create_var cell).lb = 1 ∧ (create_var cell).ub = 0 ∧
    ¬ ∃ v : ℚ, (create_var cell).lb ≤ v ∧ v ≤ (create_var cell).ub := by
  refine ⟨by simp [create_var, hs], by simp [create_var, hz], ?_⟩
  rintro ⟨v, h1, h2⟩
  rw [show (create_var cell).lb = 1 by simp [create_var, hs]] at h1
  rw [show (create_var cell).ub = 0 by simp [create_var, hz]] at h2
  linarith

/-- A sensitive cell with nominal value 0, as read.data can produce:
the loader only prints a warning for a zero nominal value not marked as
a structural zero and continues. -/
def sensitiveZeroCell : Cell := ⟨0, true, 1, 0, 0, 1, 1⟩

/-- C9 witness: the infeasibility theorem applied to sensitiveZeroCell. -/
theorem C9_sensitive_zero_cell_infeasible_witness :
    sensitiveZeroCell.sensitive = true ∧ sensitiveZeroCell.nominal = 0 ∧
    ((create_var sensitiveZeroCell).lb = 1 ∧ (create_var sensitiveZeroCell).ub = 0 ∧
      ¬ ∃ v : ℚ, (create_var sensitiveZeroCell).lb ≤ v ∧ v ≤ (create_var sensitiveZeroCell).ub) :=
  ⟨rfl, rfl, C9_sensitive_zero_cell_infeasible sensitiveZeroCell rfl rfl⟩

/-- Mutable state of the attacker LP (src/attacker.py): the stored
suppression pattern and the per-variable box bounds. -/
structure AttackerState where
  supp_level : Nat → ℚ
  varLB : Nat → ℚ
  varUB : Nat → ℚ

/-- Attacker.update_bounds (src/attacker.py lines 48-57): store the
pattern, then for each cell of the instance set the variable upper bound
to nominal plus UB times the suppression level and the lower bound to
nominal minus LB times the suppression level. -/
def update_bounds (d : TableData) (att : AttackerState) (supp : Nat → ℚ) : AttackerState where
  supp_level := supp
  varUB := fun c =>
    if c ∈ d.cellIds then (d.cellInfo c).nominal + (d.cellInfo c).UB * supp c else att.varUB c
  varLB := fun c =>
    if c ∈ d.cellIds then (d.cellInfo c).nominal - (d.cellInfo c).LB * supp c else att.varLB c

/-- C6: update_bounds sets, for every cell of the instance, the upper
bound to nominal plus UB times the pattern value and the lower bound to
nominal minus LB times the pattern value; a pattern value 0 pins the
variable at its nominal value, and a pattern value 1 opens the full raw
deviation interval. -/
theorem C6_update_bounds (d : TableData) (att : AttackerState) (supp : Nat → ℚ)
    (c : Nat) (hc : c ∈ d.cellIds) :
    (update_bounds d att supp).varUB c = (d.cellInfo c).nominal + (d.cellInfo c).UB * supp c ∧
    (update_bounds d att supp).varLB c = (d.cellInfo c).nominal - (d.cellInfo c).LB * supp c ∧
    (supp c = 0 →
      (update_bounds d att supp).varUB c = (d.cellInfo c).nominal ∧
      (update_bounds d att supp).varLB c = (d.cellInfo c).nominal) ∧
    (supp c = 1 →
      (update_bounds d att supp).varUB c = (d.cellInfo c).nominal + (d.cellInfo c).UB ∧
      (update_bounds d att supp).varLB c = (d.cellInfo c).nominal - (d.cellInfo c).LB) := by
  refine ⟨by simp [update_bounds, hc], by simp [update_bounds, hc], ?_, ?_⟩
  · intro h0
    constructor <;> simp [update_bounds, hc, h0]
  · intro h1
    constructor <;> simp [update_bounds, hc, h1]

/-- An arbitrary attacker state used to instantiate theorems with a
membership hypothesis. -/
def exAttacker : AttackerState := ⟨fun _ => 0, fun _ => 0, fun _ => 0⟩

/-- C6 witness: the bound-update theorem applied to cell 1 of exData
with the all-zero pattern. -/
theorem C6_update_bounds_witness :
    (1 ∈ exData.cellIds) ∧
    ((update_bounds exData exAttacker fun _ => 0).varUB 1 =
        (exData.cellInfo 1).nominal + (exData.cellInfo 1).UB * 0 ∧
      (update_bounds exData exAttacker fun _ => 0).varLB 1 =
        (exData.cellInfo 1).nominal - (exData.cellInfo 1).LB * 0 ∧
      ((0 : ℚ) = 0 →
        (update_bounds exData exAttacker fun _ => 0).varUB 1 = (exData.cellInfo 1).nominal ∧
        (update_bounds exData exAttacker fun _ => 0).varLB 1 = (exData.cellInfo 1).nominal) ∧
      ((0 : ℚ) = 1 →
        (update_bounds exData exAttacker fun _ => 0).varUB 1 =
          (exData.cellInfo 1).nominal + (exData.cellInfo 1).UB ∧
        (update_bounds exData exAttacker fun _ => 0).varLB 1 =
          (exData.cellInfo 1).nominal - (exData.cellInfo 1).LB)) :=
  ⟨by decide, C6_update_bounds exData exAttacker (fun _ => 0) 1 (by decide)⟩

/-- The centre of an inference interval (src/consistent.py line 16):
half the sum of the lower and upper inference bounds. -/
def centre_A (bound : ℚ × ℚ) : ℚ := (bound.1 + bound.2) / 2

/-- The half-width of an inference interval (src/consistent.py line 17). -/
def gap_B (bound : ℚ × ℚ) : ℚ := (bound.2 - bound.1) / 2

/-- The upper bound given to the down-deviation variable z_min of a cell
(src/consistent.py line 22): the half-width, shrunk by one unit when the
centre minus the half-width is zero while the half-width is positive. -/
def z_min_ub (bound : ℚ × ℚ) : ℚ :=
  if centre_A bound - gap_B bound = 0 ∧ 0 < gap_B bound then gap_B bound - 1 else gap_B bound

/-- Modelled from the words of the specification for claim C7: shrink the
down-deviation bound by one unit when the midpoint of the interval
coincides with its lower inference bound while the half-width is
positive. -/
def claimed_z_min_ub (bound : ℚ × ℚ) : ℚ :=
  if centre_A bound = bound.1 ∧ 0 < gap_B bound then gap_B bound - 1 else gap_B bound

/-- C7 counterexample: for the interval from 0 to 10 the midpoint is 5
and the lower bound is 0, so the condition of the claim does not hold
and the claim predicts the full half-width 5, while the code sets the
down-deviation upper bound to 4, because its actual condition is that
the lower inference bound is zero. -/
theorem C7_degenerate_guard_counterexample :
    z_min_ub (0, 10) = 4 ∧ claimed_z_min_ub (0, 10) = 5 ∧
    z_min_ub (0, 10) ≠ claimed_z_min_ub (0, 10) := by
  norm_num [z_min_ub, claimed_z_min_ub, centre_A, gap_B]

/-- C7 (amended): the down-deviation upper bound of a cell is the
half-width minus one exactly when the lower inference bound of the cell
is zero while the interval has positive width, and the half-width
otherwise; equivalently, the guard fires when the midpoint coincides
with the half-width, not when it coincides with the lower bound. -/
theorem C7_degenerate_guard_amended (l u : ℚ) :
    z_min_ub (l, u) = (if l = 0 ∧ l < u then (u - l) / 2 - 1 else (u - l) / 2) := by
  simp only [z_min_ub, centre_A, gap_B]
  split_ifs with h1 h2 h2
  · rfl
  · exact absurd ⟨by linarith [h1.1], by linarith [h1.2]⟩ h2
  · exact absurd ⟨by linarith [h2.1], by linarith [h2.2]⟩ h1
  · rfl

/-- The diving update of the master lower bounds (src/solver.py lines
73-75): for every cell of the instance, the variable lower bound becomes
the current solution value. -/
def diving_lower_bounds (d : TableData) (lb supp : Nat → ℚ) : Nat → ℚ :=
  fun c => if c ∈ d.cellIds then supp c else lb c

/-- The suppression count of a pattern (src/solver.py line 78): the
number of values at least 1. -/
def num_suppressions (d : TableData) (supp : Nat → ℚ) : Nat :=
  d.cellIds.countP fun c => decide ((1 : ℚ) ≤ supp c)

/-- The enforced minimum total-suppression count of the growth-floor
constraint (src/solver.py line 79). -/
def enforced_num_suppressions (d : TableData) (supp : Nat → ℚ) (mult : ℚ) : ℚ :=
  min ((num_suppressions d supp : ℚ) * mult) ((num_nz d : ℚ))

/-- The transient growth-floor (dummy) constraint (src/solver.py lines
80-82): the sum of all master variables, each with coefficient one, at
least the enforced count. -/
def dummy_constraint (d : TableData) (supp : Nat → ℚ) (mult : ℚ) : Cut :=
  { terms := d.cellIds.map fun c => ((1 : ℚ), c), rhs := enforced_num_suppressions d supp mult }

/-- A master solution respects the current variable lower bounds; this is
the only coupling between consecutive diving iterations that the claims
about monotonicity need. -/
def MasterFeasible (d : TableData) (lb supp : Nat → ℚ) : Prop :=
  ∀ c ∈ d.cellIds, lb c ≤ supp c

/-- A valid run of the diving loop of Solver.heuristic_solve
(src/solver.py lines 39-94): each master solution respects the lower
bounds produced by the diving update applied to the previous solution. -/
def DivingTrace (d : TableData) : (Nat → ℚ) → List (Nat → ℚ) → Prop
  | _, [] => True
  | lb, supp :: rest =>
    MasterFeasible d lb supp ∧ DivingTrace d (diving_lower_bounds d lb supp) rest

/-- One diving step keeps every suppressed cell suppressed: the lower
bound of a suppressed cell is raised to its solution value, so the next
feasible solution keeps it at least 1. -/
theorem diving_step_persists (d : TableData) (lb s s' : Nat → ℚ)
    (hfeas : MasterFeasible d (diving_lower_bounds d lb s) s')
    (c : Nat) (hc : c ∈ d.cellIds) (h1 : 1 ≤ s c) : 1 ≤ s' c := by
  have h := hfeas c hc
  simp only [diving_lower_bounds, if_pos hc] at h
  linarith

/-- Suppressions of the head of a diving trace persist into every later
solution of the trace. -/
theorem diving_head_to_later (d : TableData) (rest : List (Nat → ℚ)) :
    ∀ (lb s : Nat → ℚ), DivingTrace d (diving_lower_bounds d lb s) rest →
      ∀ (j : Nat) (hj : j < rest.length) (c : Nat), c ∈ d.cellIds → 1 ≤ s c →
        1 ≤ rest.get ⟨j, hj⟩ c := by
  induction rest with
  | nil =>
    intro lb s _ j hj
    exact absurd hj (Nat.not_lt_zero j)
  | cons s' rest' ih =>
    intro lb s hdt j hj c hc h1
    obtain ⟨hfeas, htr⟩ := hdt
    have hstep : 1 ≤ s' c := diving_step_persists d lb s s' hfeas c hc h1
    cases j with
    | zero => exact hstep
    | succ k =>
      exact ih (diving_lower_bounds d lb s) s' htr k (Nat.lt_of_succ_lt_succ hj) c hc hstep

/-- Suppressions persist from any earlier to any later iteration of a
diving trace. -/
theorem diving_trace_persists (d : TableData) (trace : List (Nat → ℚ)) :
    ∀ (lb : Nat → ℚ), DivingTrace d lb trace →
      ∀ (i j : Nat) (hij : i ≤ j) (hj : j < trace.length) (c : Nat), c ∈ d.cellIds →
        1 ≤ trace.get ⟨i, lt_of_le_of_lt hij hj⟩ c → 1 ≤ trace.get ⟨j, hj⟩ c := by
  induction trace with
  | nil =>
    intro lb _ i j hij hj
    exact absurd hj (Nat.not_lt_zero j)
  | cons s rest ih =>
    intro lb hdt i j hij hj c hc hi
    obtain ⟨hfeas, htr⟩ := hdt
    cases i with
    | zero =>
      cases j with
      | zero => exact hi
      | succ k =>
        exact diving_head_to_later d rest lb s htr k (Nat.lt_of_succ_lt_succ hj) c hc hi
    | succ i' =>
      cases j with
      | zero => exact absurd hij (by omega)
      | succ j' =>
        exact ih (diving_lower_bounds d lb s) htr i' j' (Nat.le_of_succ_le_succ hij)
          (Nat.lt_of_succ_lt_succ hj) c hc hi

/-- Pointwise persistence of suppressions implies that the suppression
count does not decrease. -/
theorem num_suppressions_mono (d : TableData) (s t : Nat → ℚ)
    (h : ∀ c ∈ d.cellIds, 1 ≤ s c → 1 ≤ t c) :
    num_suppressions d s ≤ num_suppressions d t := by
  refine List.countP_mono_left ?_
  intro c hc hp
  simpa using h c hc (by simpa using hp)

/-- A non-decreasing suppression count gives a non-decreasing enforced
growth floor, for any non-negative multiplier. -/
theorem enforced_num_suppressions_mono (d : TableData) (s t : Nat → ℚ) (mult : ℚ)
    (hm : 0 ≤ mult) (hst : num_suppressions d s ≤ num_suppressions d t) :
    enforced_num_suppressions d s mult ≤ enforced_num_suppressions d t mult := by
  unfold enforced_num_suppressions
  refine min_le_min ?_ (le_refl _)
  exact mul_le_mul_of_nonneg_right (Nat.cast_le.mpr hst) hm

/-- C4: along a valid diving run, every cell suppressed at an earlier
iteration is still suppressed at every later iteration (the raised lower
bounds make the suppressed set non-decreasing), and the enforced minimum
total-suppression count of the growth-floor constraint is non-decreasing
from one iteration to the next, for any non-negative multiplier. -/
theorem C4_diving_monotone (d : TableData) (lb : Nat → ℚ) (trace : List (Nat → ℚ))
    (htrace : DivingTrace d lb trace) (mult : ℚ) (hm : 0 ≤ mult)
    (i j : Nat) (hij : i ≤ j) (hj : j < trace.length) :
    (∀ c ∈ d.cellIds,
      1 ≤ trace.get ⟨i, lt_of_le_of_lt hij hj⟩ c → 1 ≤ trace.get ⟨j, hj⟩ c) ∧
    enforced_num_suppressions d (trace.get ⟨i, lt_of_le_of_lt hij hj⟩) mult ≤
      enforced_num_suppressions d (trace.get ⟨j, hj⟩) mult ∧
    (dummy_constraint d (trace.get ⟨i, lt_of_le_of_lt hij hj⟩) mult).rhs ≤
      (dummy_constraint d (trace.get ⟨j, hj⟩) mult).rhs := by
  have hpers := fun c hc => diving_trace_persists d trace lb htrace i j hij hj c hc
  have henf := enforced_num_suppressions_mono d _ _ mult hm
    (num_suppressions_mono d _ _ hpers)
  exact ⟨hpers, henf, henf⟩

/-- A one-cell instance for instantiating the diving-monotonicity
theorem. -/
def divData : TableData := ⟨[1], fun _ => ⟨7, false, 1, 2, 2, 0, 0⟩, []⟩

/-- All-zero initial lower bounds for divData. -/
def divLB : Nat → ℚ := fun _ => 0

/-- First master solution of the concrete diving run: nothing suppressed. -/
def divSol0 : Nat → ℚ := fun _ => 0

/-- Second master solution of the concrete diving run: cell suppressed. -/
def divSol1 : Nat → ℚ := fun _ => 1

/-- C4 witness: the diving-monotonicity theorem applied to the two-step
run divSol0, divSol1 on divData with multiplier 1. -/
theorem C4_diving_monotone_witness :
    (∀ c ∈ divData.cellIds, 1 ≤ divSol0 c → 1 ≤ divSol1 c) ∧
    enforced_num_suppressions divData divSol0 1 ≤
      enforced_num_suppressions divData divSol1 1 ∧
    (dummy_constraint divData divSol0 1).rhs ≤ (dummy_constraint divData divSol1 1).rhs :=
  C4_diving_monotone divData divLB [divSol0, divSol1]
    ⟨fun c _ => le_refl 0,
     fun c _ => by simp [diving_lower_bounds, divData, divSol0, divSol1, divLB],
     trivial⟩
    1 (by norm_num) 0 1 (by norm_num) (by norm_num)

/-- C8: the right-hand side of the growth-floor constraint is the
minimum of the scaled suppression count and the number of cells with
nonzero nominal value, hence never exceeds the latter, and the
constraint sums every master variable with coefficient one. -/
theorem C8_growth_floor_capped (d : TableData) (supp : Nat → ℚ) (mult : ℚ) :
    (dummy_constraint d supp mult).rhs =
      min ((num_suppressions d supp : ℚ) * mult) ((num_nz d : ℚ)) ∧
    (dummy_constraint d supp mult).rhs ≤ (num_nz d : ℚ) ∧
    (dummy_constraint d supp mult).terms = d.cellIds.map (fun c => ((1 : ℚ), c)) :=
  ⟨rfl, min_le_right _ _, rfl⟩

/-- The master variables as seen by the solver: solution value, lower
bound and upper bound per cell (src/master.py, src/solver.py). -/
structure MasterVars where
  x : Nat → ℚ
  lb : Nat → ℚ
  ub : Nat → ℚ

/-- Combined state of a Solver object (src/solver.py): master variables,
the accumulated master constraint pool, the sub-problem state and the
attacker state. -/
structure SolverState where
  masterVars : MasterVars
  masterCuts : List Cut
  sub : SubState
  att : AttackerState

/-- The suppressed-variable count underlying Master.print_results
(src/master.py lines 114-116): the number of master variables whose
solution value exceeds one half. -/
def num_suppressed_vars (d : TableData) (mv : MasterVars) : Nat :=
  d.cellIds.countP fun c => decide ((1 : ℚ)/2 < mv.x c)

/-- Solver.remove_redundant_suppressions (src/solver.py lines 125-148):
read the pattern from the master variables, push it into the attacker,
re-run the sub-problem in extended mode with refreshed bounds (any cuts
it finds go to the master pool), then for every cell compute the
reported interval (the tight LOW and HIGH for suppressed cells, the
nominal point otherwise) and reclassify as unsuppressed every suppressed
cell whose interval has width at most zero, writing the zero both into
the returned mapping and into the stored attacker pattern.  Returns the
new state together with the mapping and the intervals. -/
def remove_redundant_suppressions (oracle : Oracle) (d : TableData) (st : SolverState) :
    SolverState × ((Nat → ℚ) × (Nat → ℚ × ℚ)) :=
  let supp_levels : Nat → ℚ := st.masterVars.x
  let att1 := update_bounds d st.att supp_levels
  let sub1 := sub_solve oracle d att1.supp_level st.sub true true
  let bounds : Nat → ℚ × ℚ := fun c =>
    if (1 : ℚ)/2 < att1.supp_level c then (sub1.LOW c, sub1.HIGH c)
    else ((d.cellInfo c).nominal, (d.cellInfo c).nominal)
  let redundant : Nat → Prop := fun c =>
    (1 : ℚ)/2 < att1.supp_level c ∧ (bounds c).2 - (bounds c).1 ≤ 0
  let new_supp : Nat → ℚ := fun c =>
    if c ∈ d.cellIds ∧ redundant c then 0 else supp_levels c
  ({ masterVars := st.masterVars
     masterCuts := st.masterCuts ++ sub1.cuts
     sub := sub1
     att := { att1 with supp_level := new_supp } },
   (new_supp, bounds))

/-- C10: redundancy removal leaves the master variables (solution
values, lower bounds, upper bounds) unchanged, so the suppressed count a
report computes from the master variables afterwards still reflects the
pre-removal pattern; the stored attacker pattern agrees everywhere with
the returned mapping, and the returned mapping differs from the master
solution values only by reclassifying cells to zero. -/
theorem C10_redundancy_removal_frame (oracle : Oracle) (d : TableData) (st : SolverState) :
    (remove_redundant_suppressions oracle d st).1.masterVars = st.masterVars ∧
    num_suppressed_vars d (remove_redundant_suppressions oracle d st).1.masterVars =
      num_suppressed_vars d st.masterVars ∧
    (∀ c : Nat, (remove_redundant_suppressions oracle d st).1.att.supp_level c =
      (remove_redundant_suppressions oracle d st).2.1 c) ∧
    (∀ c : Nat, (remove_redundant_suppressions oracle d st).2.1 c = 0 ∨
      (remove_redundant_suppressions oracle d st).2.1 c = st.masterVars.x c) := by
  refine ⟨rfl, rfl, fun c => rfl, fun c => ?_⟩
  simp only [remove_redundant_suppressions]
  split_ifs <;> simp
